import Mathlib

/-!
Verification of the MicroShopGen feature-selection and generation tool
(`microshopgen.py`, `generators/base.py`, `generators/inventory.py`).

The Python program is shallowly embedded:
* the static `FEATURES` catalog becomes a concrete association list;
* the Selection State (a Python `dict` from category name to a list of
  selected component identifiers, produced by `json.load`) becomes
  `SelState := List (String × List String)`, with lookup/update helpers
  mirroring Python `dict` indexing on the first matching key;
* the configuration file is modelled by `Option String` (`none` = the file
  does not exist, `some text` = the file exists with content `text`);
  `json.dump(state, f, indent=2)` becomes the executable serializer
  `dumps`, and `json.load` becomes the executable `parseConfig` for the
  configuration fragment of JSON (an object whose values are arrays of
  strings); a text `parseConfig` rejects models a file on which
  `json.load` raises `JSONDecodeError`;
* the filesystem touched by the generators becomes an explicit `FS` value
  (set of created directories and a map from path to file content);
* Python exceptions become explicit error constructors
  (`ToggleResult.keyError`, `LoadError.parseError`, `GenError`).
-/

/-- One entry of a category's `components` dict in `FEATURES`
(`microshopgen.py` lines 16-77): display name, description and the
`required` flag. -/
structure Component where
  name : String
  description : String
  required : Bool
deriving DecidableEq

/-- One category of `FEATURES`: its `description` and its `components`
dict, kept as an association list in source order. -/
structure FCategory where
  description : String
  components : List (String × Component)
deriving DecidableEq

/-- The static feature catalog `FEATURES` of `microshopgen.py`,
transcribed verbatim (categories and components in source order). -/
def FEATURES : List (String × FCategory) :=
  [ ("core",
     { description := "Core services required for basic e-commerce functionality",
       components :=
        [ ("gateway",
           { name := "API Gateway",
             description := "Entry point for all client requests",
             required := true }),
          ("user",
           { name := "User Service",
             description := "User authentication and profile management",
             required := true }),
          ("catalog",
           { name := "Catalog Service",
             description := "Product catalog management",
             required := true }),
          ("cart",
           { name := "Cart Service",
             description := "Shopping cart management",
             required := true }),
          ("orders",
           { name := "Order Service",
             description := "Order processing and management",
             required := true }),
          ("payments",
           { name := "Payment Service",
             description := "Payment processing",
             required := true }),
          ("inventory",
           { name := "Inventory Service",
             description := "Stock management",
             required := true }) ] }),
    ("optional",
     { description := "Optional services to enhance e-commerce functionality",
       components :=
        [ ("reviews",
           { name := "Reviews Service",
             description := "Product reviews and ratings",
             required := false }),
          ("discounts",
           { name := "Discounts Service",
             description := "Promotional offers and discount management",
             required := false }),
          ("admin",
           { name := "Admin Dashboard Service",
             description := "Administrative interface backend",
             required := false }) ] }) ]

/-- The in-memory Selection State `selected_features`: a Python dict from
category name to the list of selected component ids.  Being built by
`json.load`, it can have any keys and any string lists, so it is an
association list, not a fixed record. -/
abbrev SelState : Type := List (String × List String)

/-- Python `d[k]` read access / `k in d` on a dict, on the first matching
key of the association list. -/
def lookupA {α : Type} : List (String × α) → String → Option α
  | [], _ => none
  | (k₂, v) :: rest, k => if k₂ = k then some v else lookupA rest k

/-- Replace the value stored at key `k` (models in-place mutation of the
list stored in the Python dict at an existing key). -/
def updateA (s : SelState) (k : String) (v : List String) : SelState :=
  match s with
  | [] => []
  | (k₂, w) :: rest => if k₂ = k then (k₂, v) :: rest else (k₂, w) :: updateA rest k v

/-- Python `d[k].append(x)` on the dict: append `x` to the list at the
first occurrence of key `k` (in `_load_config` the key always exists). -/
def appendAt (s : SelState) (k x : String) : SelState :=
  match s with
  | [] => []
  | (k₂, w) :: rest => if k₂ = k then (k₂, w ++ [x]) :: rest else (k₂, w) :: appendAt rest k x

/-- `FEATURES[category]["components"][feature_id]`: the Catalog lookup of
a (category, component id) pair, `none` when the category is unknown or
the id is not among the category's components. -/
def catalogLookup (category featureId : String) : Option Component :=
  match lookupA FEATURES category with
  | none => none
  | some data => lookupA data.components featureId

/-- The identifiers of a category's components whose `required` flag is
set, in catalog order (the spec's "required component ids from the
Catalog for that category"). -/
def requiredIds (data : FCategory) : List String :=
  (data.components.filter (fun p => p.2.required)).map (fun p => p.1)

/-- The default Selection State built by `FeatureSelector._load_config`
when the configuration file is absent: start from
`{"core": [], "optional": []}` and append every component id whose
`required` flag is set, iterating the catalog in source order. -/
def default_config : SelState :=
  FEATURES.foldl
    (fun cfg entry =>
      entry.2.components.foldl
        (fun cfg₂ comp =>
          if comp.2.required then appendAt cfg₂ entry.1 comp.1 else cfg₂)
        cfg)
    [("core", []), ("optional", [])]

/-- Outcome of `FeatureSelector.toggle_feature`.  The Python method
returns `False` after printing the "not found" message
(`unknownFeature`) or the "Cannot disable required feature" message
(`requiredImmutable`); it raises an uncaught `KeyError` when the category
key is missing from the Selection State (`keyError`); on success it
returns `True`, printing `Enabled: <id>` when `enabled = true` (the id
was appended) and `Disabled: <id>` when `enabled = false` (the id was
removed). -/
inductive ToggleResult where
  | unknownFeature
  | requiredImmutable
  | keyError
  | success (enabled : Bool)
deriving DecidableEq

/-- `FeatureSelector.toggle_feature` (`microshopgen.py` lines 124-144),
returning the outcome together with the Selection State after the call
(unchanged on every non-success outcome, since the Python method returns
or raises before mutating). -/
def toggle_feature (state : SelState) (category featureId : String) :
    ToggleResult × SelState :=
  match lookupA FEATURES category with
  | none => (ToggleResult.unknownFeature, state)
  | some data =>
    match lookupA data.components featureId with
    | none => (ToggleResult.unknownFeature, state)
    | some comp =>
      if comp.required then (ToggleResult.requiredImmutable, state)
      else
        match lookupA state category with
        | none => (ToggleResult.keyError, state)
        | some l =>
          if featureId ∈ l then
            (ToggleResult.success false, updateA state category (l.erase featureId))
          else
            (ToggleResult.success true, updateA state category (l ++ [featureId]))

/-- Two Selection States that are equal as maps from category to *set*
of selected ids: same keys in the same dict order, and the value lists
are permutations of each other (the spec's Selection State is
"category → set of selected component identifiers (order irrelevant
within a category)"). -/
def statePerm (s t : SelState) : Prop :=
  List.Forall₂ (fun p q => p.1 = q.1 ∧ p.2.Perm q.2) s t

/-- The filesystem as seen by the generators: the set of directories
created so far and a map from file path to content. -/
structure FS where
  dirs : List String
  files : List (String × String)
deriving DecidableEq

/-- `os.makedirs(d, exist_ok=True)`: record the directory; no error and
no change when it already exists (parent creation is implicit in the
single recorded path). -/
def makedirs (fs : FS) (d : String) : FS :=
  if d ∈ fs.dirs then fs else { fs with dirs := fs.dirs ++ [d] }

/-- `open(path, "w")` followed by a full write: create the file or
overwrite the content at an existing path. -/
def setFile : List (String × String) → String → String → List (String × String)
  | [], p, c => [(p, c)]
  | (q, d) :: rest, p, c =>
    if q = p then (p, c) :: rest else (q, d) :: setFile rest p c

/-- Write a whole file into the modelled filesystem. -/
def writeFile (fs : FS) (path content : String) : FS :=
  { fs with files := setFile fs.files path content }

/-- The exact template text written to `inventory/main.py` by
`InventoryServiceGenerator.generate_main` (braces escaped as `\x7b` and
`\x7d`). -/
def mainPyContent : String :=
  "\"\"\"\nInventory Microservice - Auto-generated file\nBuilt with MicroShopGen\n\"\"\"\n\nfrom flask import Flask\n\napp = Flask(__name__)\n\n@app.route(\"/inventory\")\ndef inventory():\n    return \x7b\"message\": \"Inventory service running. Built with MicroShopGen\"\x7d\n\n@app.route(\"/inventory/product_ids\")\ndef get_product_ids():\n    #todo: Implement logic to fetch product IDs from the inventory database\n\n@app.route(\"/inventory/stock/<product_id>\")\ndef get_stock(product_id):\n    #todo: Implement logic to fetch stock for a given product ID\n\n@app.route(\"/inventory/stock/<product_id>\", methods=[\"POST\"])\ndef update_stock(product_id):\n    #todo: Implement logic to update stock for a given product ID\n\n@app.route(\"/inventory/register\", methods=[\"POST\"])\n@def register_product():\n    #todo: Implement logic to register a new product in the inventory\n\n@app.route(\"/inventory/delete/<product_id>\", methods=[\"DELETE\"])\n@def delete_product(product_id):\n    #todo: Implement logic to delete a product from the inventory\n\nif __name__ == \"__main__\":\n    app.run(host=\"0.0.0.0\", port=5007)\n"

/-- The `dockerfile_content` string built by
`InventoryServiceGenerator.generate_dockerfile`.  The Python method
constructs this local string and then ends: it never opens or writes any
file, so the content is dead data. -/
def dockerfileContent : String :=
  "FROM python:3.9-slim\n\nWORKDIR /app\n\nEXPOSE 5007\n\nENV FLASK_APP=main.py     PYTHONUNBUFFERED=1\nPYTHONPATH=/app\nPIP_NO_CACHE_DIR=1\n\nRUN pip install flask\n\nCOPY . .\n\nCMD [\"flask\", \"run\", \"--host=0.0.0\", \"--port=5007\"]\n"

/-- `InventoryServiceGenerator.generate` (`generators/inventory.py`):
`generate_main` makes `<output_dir>/inventory` (exist_ok) and writes
`main.py`; `generate_dockerfile` only constructs `dockerfileContent`
and performs no filesystem operation, so it leaves `fs` unchanged. -/
def inventoryGenerate (outputDir : String) (fs : FS) : FS :=
  let serviceDir := outputDir ++ "/inventory"
  let fs₁ := makedirs fs serviceDir
  let fs₂ := writeFile fs₁ (serviceDir ++ "/main.py") mainPyContent
  fs₂

/-- The `generators` dict of `generate_microservices`: only the
`inventory` key is registered. -/
def generatorNames : List String := ["inventory"]

/-- Dispatch `generators[feature]().generate(output_dir)` for a
registered feature name. -/
def runGenerator (featureName : String) (outputDir : String) (fs : FS) : FS :=
  if featureName = "inventory" then inventoryGenerate outputDir fs else fs

/-- One iteration of the loop body of `generate_microservices`:
`if feature in generators: generators[feature]().generate(output_dir)`. -/
def genStep (outputDir : String) (fs : FS) (featureName : String) : FS :=
  if featureName ∈ generatorNames then runGenerator featureName outputDir fs else fs

/-- Errors that escape `generate_microservices`: a `JSONDecodeError`
from loading the configuration, or a `KeyError` when the loaded state
lacks the `core` or `optional` key. -/
inductive GenError where
  | parseError
  | keyError
deriving DecidableEq

/-- The dispatch loop of `generate_microservices` over an in-memory
Selection State: iterate `selected_features["core"] +
selected_features["optional"]` and invoke the registered generator of
each feature present in the `generators` dict. -/
def generate_all (state : SelState) (outputDir : String) (fs : FS) :
    Except GenError FS :=
  match lookupA state "core", lookupA state "optional" with
  | some c, some o => Except.ok ((c ++ o).foldl (genStep outputDir) fs)
  | _, _ => Except.error GenError.keyError

/-- Characters `json.dump` escapes that can occur in this model: the
double quote and the backslash (other escapes concern control and
non-ASCII characters). -/
def jsonEscape (c : Char) : List Char :=
  if c = '"' then ['\\', '"']
  else if c = '\\' then ['\\', '\\']
  else [c]

/-- A character that serializes to itself and cannot terminate or escape
inside a JSON string literal. -/
def plainChar (c : Char) : Bool :=
  !(c = '"') && !(c = '\\')

/-- A string all of whose characters are plain. -/
def plainStr (s : String) : Bool :=
  s.data.all plainChar

/-- A Selection State whose keys and ids are all plain strings (every
catalog identifier is plain). -/
def plainState (s : SelState) : Bool :=
  s.all (fun p => plainStr p.1 && p.2.all plainStr)

/-- Two-space indentation unit of `json.dump(obj, f, indent=2)`. -/
def sp2 : List Char := [' ', ' ']

/-- Second-level indentation of `json.dump(obj, f, indent=2)`. -/
def sp4 : List Char := [' ', ' ', ' ', ' ']

/-- Serialize one string as a JSON string literal. -/
def encStr (s : String) : List Char :=
  '"' :: s.data.flatMap jsonEscape ++ ['"']

/-- Serialize a list of ids as `json.dump` at indent level 1 renders a
list of strings: `[]` when empty, otherwise one element per line at
four-space indentation. -/
def encArr (xs : List String) : List Char :=
  match xs with
  | [] => ['[', ']']
  | x :: rest =>
    '[' :: '\n' :: sp4 ++ encStr x ++
      rest.flatMap (fun y => ',' :: '\n' :: (sp4 ++ encStr y)) ++
      '\n' :: sp2 ++ [']']

/-- Serialize one `"key": [...]` object member. -/
def encEntry (p : String × List String) : List Char :=
  encStr p.1 ++ ':' :: ' ' :: encArr p.2

/-- Serialize the whole Selection State as `json.dump(state, f,
indent=2)` renders the top-level object. -/
def encObjChars (s : SelState) : List Char :=
  match s with
  | [] => ['\x7b', '\x7d']
  | e :: rest =>
    '\x7b' :: '\n' :: sp2 ++ encEntry e ++
      rest.flatMap (fun e₂ => ',' :: '\n' :: (sp2 ++ encEntry e₂)) ++
      '\n' :: ['\x7d']

/-- `json.dump(self.selected_features, f, indent=2)` as a string. -/
def dumps (s : SelState) : String :=
  String.mk (encObjChars s)

/-- Tokens of the configuration fragment of JSON. -/
inductive JTok where
  | lbrace
  | rbrace
  | lbrack
  | rbrack
  | colon
  | comma
  | str (s : String)
deriving DecidableEq

/-- JSON whitespace. -/
def wsChar (c : Char) : Bool :=
  (c = ' ') || (c = '\n') || (c = '\t') || (c = '\r')

/-- Tokenizer for the configuration fragment of JSON.  The second
argument is `some acc` while scanning the inside of a string literal
(`acc` holds the characters read so far) and `none` otherwise.  Escape
sequences inside string literals are outside the model and rejected. -/
def tokenizeAux : List Char → Option (List Char) → Option (List JTok)
  | [], none => some []
  | [], some _ => none
  | c :: cs, some acc =>
    if c = '"' then
      (tokenizeAux cs none).map (fun ts => JTok.str (String.mk acc) :: ts)
    else if c = '\\' then none
    else tokenizeAux cs (some (acc ++ [c]))
  | c :: cs, none =>
    if c = '"' then tokenizeAux cs (some [])
    else if c = '\x7b' then (tokenizeAux cs none).map (fun ts => JTok.lbrace :: ts)
    else if c = '\x7d' then (tokenizeAux cs none).map (fun ts => JTok.rbrace :: ts)
    else if c = '[' then (tokenizeAux cs none).map (fun ts => JTok.lbrack :: ts)
    else if c = ']' then (tokenizeAux cs none).map (fun ts => JTok.rbrack :: ts)
    else if c = ':' then (tokenizeAux cs none).map (fun ts => JTok.colon :: ts)
    else if c = ',' then (tokenizeAux cs none).map (fun ts => JTok.comma :: ts)
    else if wsChar c then tokenizeAux cs none
    else none

/-- Token-level acceptor for the body of a configuration object (after
the opening brace).  `acc` collects finished members; `cur = some (k,
xs)` while inside the array of key `k`.  The grammar is exactly the
shape `json.load` returns for a configuration file — an object whose
values are arrays of strings — read whitespace-insensitively; the value
is returned verbatim with no schema validation, mirroring
`json.load`. -/
def parseLoop : List JTok → SelState → Option (String × List String) → Option SelState
  | [], _, _ => none
  | JTok.rbrace :: rest, acc, cur =>
    match cur, rest with
    | none, [] => some acc
    | _, _ => none
  | JTok.str x :: rest, acc, cur =>
    match cur with
    | some kv => parseLoop rest acc (some (kv.1, kv.2 ++ [x]))
    | none =>
      match rest with
      | JTok.colon :: JTok.lbrack :: rest₂ => parseLoop rest₂ acc (some (x, []))
      | _ => none
  | JTok.comma :: rest, acc, cur => parseLoop rest acc cur
  | JTok.rbrack :: rest, acc, cur =>
    match cur with
    | some kv => parseLoop rest (acc ++ [kv]) none
    | none => none
  | _, _, _ => none

/-- Accept a token stream that is one whole configuration object. -/
def parseToks : List JTok → Option SelState
  | JTok.lbrace :: rest => parseLoop rest [] none
  | _ => none

/-- `json.load` on the content of a configuration file: `some state`
with the parsed object returned verbatim, `none` when the text is
malformed (the `JSONDecodeError` case). -/
def parseConfig (text : String) : Option SelState :=
  match tokenizeAux text.data none with
  | some ts => parseToks ts
  | none => none

/-- The error raised out of `FeatureSelector._load_config` when the
configuration file exists but `json.load` fails. -/
inductive LoadError where
  | parseError
deriving DecidableEq

/-- `FeatureSelector._load_config` (`microshopgen.py` lines 87-98) over
the modelled file (`none` = `os.path.exists` is false): parse an
existing file verbatim, propagate the parse error, or synthesize the
default configuration when the file is absent. -/
def _load_config (file : Option String) : Except LoadError SelState :=
  match file with
  | none => Except.ok default_config
  | some text =>
    match parseConfig text with
    | some s => Except.ok s
    | none => Except.error LoadError.parseError

/-- `FeatureSelector.save_config`: the configuration file after a
completed save holds the `json.dump` serialization of the state. -/
def save_config (s : SelState) : Option String :=
  some (dumps s)

/-- The content of the configuration file while `save_config` runs,
step by step: step 0 is before the call (`prev`), step 1 is just after
`open(self.config_file, "w")` — which truncates the file to empty
immediately — and step 2 and later are after `json.dump` completed.  A
write that fails partway stops the sequence at step 1. -/
def saveIntermediate (prev : Option String) (s : SelState) : Nat → Option String
  | 0 => prev
  | 1 => some ""
  | _ + 2 => save_config s

/-- `generate_microservices(config_file, output_dir)`
(`microshopgen.py` lines 174-188): build the `FeatureSelector` (which
loads the configuration) and run the dispatch loop. -/
def generate_microservices (file : Option String) (outputDir : String) (fs : FS) :
    Except GenError FS :=
  match _load_config file with
  | Except.error _ => Except.error GenError.parseError
  | Except.ok state => generate_all state outputDir fs

/-- The token sequence of a serialized array body: the elements with
separating commas. -/
def arrToks (xs : List String) : List JTok :=
  match xs with
  | [] => []
  | x :: rest => JTok.str x :: rest.flatMap (fun y => [JTok.comma, JTok.str y])

/-- The token sequence of one serialized object member. -/
def entryToks (e : String × List String) : List JTok :=
  JTok.str e.1 :: JTok.colon :: JTok.lbrack :: (arrToks e.2 ++ [JTok.rbrack])

/-- The token sequence of a whole serialized Selection State. -/
def objToks (s : SelState) : List JTok :=
  match s with
  | [] => [JTok.lbrace, JTok.rbrace]
  | e :: rest =>
    JTok.lbrace :: (entryToks e ++
      rest.flatMap (fun e₂ => JTok.comma :: entryToks e₂) ++ [JTok.rbrace])

/-- A well-formed configuration file text whose object has a `core` key
but no `optional` key (valid JSON of the configuration shape, yet not a
catalog-shaped Selection State). -/
def cfgNoOptional : String :=
  "\x7b \"core\": [\"gateway\"] \x7d"

set_option maxRecDepth 10000

theorem lookupA_updateA (s : SelState) (k : String) (v w : List String)
    (h : lookupA s k = some w) : lookupA (updateA s k v) k = some v := by
  induction s with
  | nil => simp [lookupA] at h
  | cons p rest ih =>
    by_cases hk : p.1 = k
    · simp [lookupA, updateA, hk]
    · simp [lookupA, updateA, hk] at h ⊢
      exact ih h

theorem updateA_updateA (s : SelState) (k : String) (v w : List String) :
    updateA (updateA s k v) k w = updateA s k w := by
  induction s with
  | nil => rfl
  | cons p rest ih =>
    by_cases hk : p.1 = k
    · simp [updateA, hk]
    · simp [updateA, hk, ih]

theorem updateA_self (s : SelState) (k : String) (v : List String)
    (h : lookupA s k = some v) : updateA s k v = s := by
  induction s with
  | nil => rfl
  | cons p rest ih =>
    obtain ⟨k₂, w⟩ := p
    by_cases hk : k₂ = k
    · simp [lookupA, hk] at h
      simp [updateA, hk, h]
    · simp [lookupA, hk] at h
      simp [updateA, hk, ih h]

theorem statePerm_refl (s : SelState) : statePerm s s := by
  induction s with
  | nil => exact List.Forall₂.nil
  | cons p rest ih => exact List.Forall₂.cons ⟨rfl, List.Perm.refl _⟩ ih

theorem statePerm_updateA (s : SelState) (k : String) (v l : List String)
    (h : lookupA s k = some l) (hp : List.Perm v l) :
    statePerm (updateA s k v) s := by
  induction s with
  | nil => exact List.Forall₂.nil
  | cons p rest ih =>
    obtain ⟨k₂, w⟩ := p
    by_cases hk : k₂ = k
    · simp [lookupA, hk] at h
      simp only [updateA, if_pos hk]
      exact List.Forall₂.cons ⟨rfl, h ▸ hp⟩ (statePerm_refl rest)
    · simp [lookupA, hk] at h
      simp only [updateA, if_neg hk]
      exact List.Forall₂.cons ⟨rfl, List.Perm.refl _⟩ (ih h)

theorem foldl_filter_if {α : Type} (l : List String) (p : String → Bool)
    (g : α → String → α) (z : α) :
    (l.filter p).foldl g z = l.foldl (fun a x => if p x then g a x else a) z := by
  induction l generalizing z with
  | nil => rfl
  | cons x xs ih =>
    by_cases h : p x
    · simp [List.filter_cons, h, ih]
    · simp [List.filter_cons, h, ih]

theorem tok_quote_open (cs : List Char) :
    tokenizeAux ('"' :: cs) none = tokenizeAux cs (some []) := rfl

theorem tok_lbrace_map (cs : List Char) :
    tokenizeAux ('\x7b' :: cs) none = (tokenizeAux cs none).map (fun ts => JTok.lbrace :: ts) := rfl

theorem tok_rbrace_map (cs : List Char) :
    tokenizeAux ('\x7d' :: cs) none = (tokenizeAux cs none).map (fun ts => JTok.rbrace :: ts) := rfl

theorem tok_lbrack_map (cs : List Char) :
    tokenizeAux ('[' :: cs) none = (tokenizeAux cs none).map (fun ts => JTok.lbrack :: ts) := rfl

theorem tok_rbrack_map (cs : List Char) :
    tokenizeAux (']' :: cs) none = (tokenizeAux cs none).map (fun ts => JTok.rbrack :: ts) := rfl

theorem tok_colon_map (cs : List Char) :
    tokenizeAux (':' :: cs) none = (tokenizeAux cs none).map (fun ts => JTok.colon :: ts) := rfl

theorem tok_comma_map (cs : List Char) :
    tokenizeAux (',' :: cs) none = (tokenizeAux cs none).map (fun ts => JTok.comma :: ts) := rfl

theorem tok_sp (cs : List Char) : tokenizeAux (' ' :: cs) none = tokenizeAux cs none := rfl

theorem tok_nl (cs : List Char) : tokenizeAux ('\n' :: cs) none = tokenizeAux cs none := rfl

theorem tokenizeAux_strBody (l : List Char) (acc cs : List Char) (ts : List JTok)
    (h : l.all plainChar = true) (hcs : tokenizeAux cs none = some ts) :
    tokenizeAux (l ++ '"' :: cs) (some acc) =
      some (JTok.str (String.mk (acc ++ l)) :: ts) := by
  induction l generalizing acc with
  | nil =>
    simp only [List.nil_append, List.append_nil]
    show (tokenizeAux cs none).map (fun ts => JTok.str (String.mk acc) :: ts) = _
    rw [hcs]
    rfl
  | cons c l ih =>
    simp only [List.all_cons, plainChar, Bool.and_eq_true, Bool.not_eq_true',
      decide_eq_false_iff_not] at h
    obtain ⟨⟨h1, h2⟩, h3⟩ := h
    simp only [List.cons_append]
    rw [show tokenizeAux (c :: (l ++ '"' :: cs)) (some acc) =
        tokenizeAux (l ++ '"' :: cs) (some (acc ++ [c])) by
      simp [tokenizeAux, h1, h2]]
    rw [ih (acc ++ [c]) h3]
    simp [List.append_assoc]

theorem plain_flatMap (l : List Char) (h : l.all plainChar = true) :
    l.flatMap jsonEscape = l := by
  induction l with
  | nil => rfl
  | cons c l ih =>
    simp only [List.all_cons, plainChar, Bool.and_eq_true, Bool.not_eq_true',
      decide_eq_false_iff_not] at h
    obtain ⟨⟨h1, h2⟩, h3⟩ := h
    simp [List.flatMap_cons, jsonEscape, h1, h2, ih h3]

theorem tokenizeAux_encStr (x : String) (cs : List Char) (ts : List JTok)
    (hx : plainStr x = true) (hcs : tokenizeAux cs none = some ts) :
    tokenizeAux (encStr x ++ cs) none = some (JTok.str x :: ts) := by
  unfold plainStr at hx
  simp only [encStr, plain_flatMap x.data hx, List.cons_append, List.append_assoc]
  rw [tok_quote_open]
  have := tokenizeAux_strBody x.data [] cs ts hx hcs
  simpa using this

theorem tok_sp2 (cs : List Char) : tokenizeAux (sp2 ++ cs) none = tokenizeAux cs none := rfl

theorem tok_sp4 (cs : List Char) : tokenizeAux (sp4 ++ cs) none = tokenizeAux cs none := rfl

theorem tokenizeAux_arrTail (ys : List String) (cs : List Char) (ts : List JTok)
    (hy : ys.all plainStr = true) (hcs : tokenizeAux cs none = some ts) :
    tokenizeAux (ys.flatMap (fun y => ',' :: '\n' :: (sp4 ++ encStr y)) ++ cs) none =
      some (ys.flatMap (fun y => [JTok.comma, JTok.str y]) ++ ts) := by
  induction ys with
  | nil => simpa using hcs
  | cons y ys ih =>
    simp only [List.all_cons, Bool.and_eq_true] at hy
    obtain ⟨h1, h2⟩ := hy
    simp only [List.flatMap_cons, List.cons_append, List.append_assoc]
    rw [tok_comma_map, tok_nl, tok_sp4]
    rw [tokenizeAux_encStr y _ _ h1 (ih h2)]
    simp

theorem tokenizeAux_encArr (xs : List String) (cs : List Char) (ts : List JTok)
    (hx : xs.all plainStr = true) (hcs : tokenizeAux cs none = some ts) :
    tokenizeAux (encArr xs ++ cs) none =
      some (JTok.lbrack :: (arrToks xs ++ JTok.rbrack :: ts)) := by
  cases xs with
  | nil =>
    rw [show encArr [] ++ cs = '[' :: ']' :: cs from rfl]
    rw [tok_lbrack_map, tok_rbrack_map, hcs]
    simp [arrToks]
  | cons x xs =>
    simp only [List.all_cons, Bool.and_eq_true] at hx
    obtain ⟨h1, h2⟩ := hx
    simp only [encArr, List.cons_append, List.append_assoc, List.nil_append]
    rw [tok_lbrack_map, tok_nl, tok_sp4]
    have hclose : tokenizeAux ('\n' :: (sp2 ++ (']' :: cs))) none =
        some (JTok.rbrack :: ts) := by
      rw [tok_nl, tok_sp2, tok_rbrack_map, hcs]
      rfl
    have htail := tokenizeAux_arrTail xs ('\n' :: (sp2 ++ (']' :: cs)))
      (JTok.rbrack :: ts) h2 hclose
    rw [tokenizeAux_encStr x _ _ h1 htail]
    simp [arrToks]

theorem tokenizeAux_encEntry (e : String × List String) (cs : List Char) (ts : List JTok)
    (h1 : plainStr e.1 = true) (h2 : e.2.all plainStr = true)
    (hcs : tokenizeAux cs none = some ts) :
    tokenizeAux (encEntry e ++ cs) none = some (entryToks e ++ ts) := by
  obtain ⟨k, xs⟩ := e
  simp only [encEntry, List.cons_append, List.append_assoc]
  have harr := tokenizeAux_encArr xs cs ts h2 hcs
  have hcolon : tokenizeAux (':' :: ' ' :: (encArr xs ++ cs)) none =
      some (JTok.colon :: JTok.lbrack :: (arrToks xs ++ JTok.rbrack :: ts)) := by
    rw [tok_colon_map, tok_sp, harr]
    rfl
  rw [tokenizeAux_encStr k _ _ h1 hcolon]
  simp [entryToks]

theorem tokenizeAux_objTail (es : SelState) (cs : List Char) (ts : List JTok)
    (he : es.all (fun p => plainStr p.1 && p.2.all plainStr) = true)
    (hcs : tokenizeAux cs none = some ts) :
    tokenizeAux (es.flatMap (fun e₂ => ',' :: '\n' :: (sp2 ++ encEntry e₂)) ++ cs) none =
      some (es.flatMap (fun e₂ => JTok.comma :: entryToks e₂) ++ ts) := by
  induction es with
  | nil => simpa using hcs
  | cons e es ih =>
    simp only [List.all_cons, Bool.and_eq_true] at he
    obtain ⟨⟨h1, h2⟩, h3⟩ := he
    simp only [List.flatMap_cons, List.cons_append, List.append_assoc]
    rw [tok_comma_map, tok_nl, tok_sp2]
    rw [tokenizeAux_encEntry e _ _ h1 h2 (ih h3)]
    simp

theorem tokenize_dumps (s : SelState) (h : plainState s = true) :
    tokenizeAux (encObjChars s) none = some (objToks s) := by
  cases s with
  | nil => rfl
  | cons e es =>
    simp only [plainState, List.all_cons, Bool.and_eq_true] at h
    obtain ⟨⟨h1, h2⟩, h3⟩ := h
    simp only [encObjChars, List.cons_append, List.append_assoc, List.nil_append]
    rw [tok_lbrace_map, tok_nl, tok_sp2]
    have hend : tokenizeAux ['\n', '\x7d'] none = some [JTok.rbrace] := rfl
    have htail := tokenizeAux_objTail es ['\n', '\x7d'] [JTok.rbrace] h3 hend
    rw [tokenizeAux_encEntry e _ _ h1 h2 htail]
    simp [objToks]

theorem pl_comma (rest : List JTok) (acc : SelState) (cur : Option (String × List String)) :
    parseLoop (JTok.comma :: rest) acc cur = parseLoop rest acc cur := rfl

theorem pl_str_in (x : String) (rest : List JTok) (acc : SelState)
    (kv : String × List String) :
    parseLoop (JTok.str x :: rest) acc (some kv) =
      parseLoop rest acc (some (kv.1, kv.2 ++ [x])) := rfl

theorem pl_rbrack_in (rest : List JTok) (acc : SelState) (kv : String × List String) :
    parseLoop (JTok.rbrack :: rest) acc (some kv) = parseLoop rest (acc ++ [kv]) none := rfl

theorem pl_entry_start (x : String) (rest : List JTok) (acc : SelState) :
    parseLoop (JTok.str x :: JTok.colon :: JTok.lbrack :: rest) acc none =
      parseLoop rest acc (some (x, [])) := rfl

theorem pl_done (acc : SelState) : parseLoop [JTok.rbrace] acc none = some acc := rfl

theorem parseLoop_arrTail (ys : List String) (k : String) (zs : List String)
    (acc : SelState) (rest : List JTok) :
    parseLoop (ys.flatMap (fun y => [JTok.comma, JTok.str y]) ++ JTok.rbrack :: rest)
        acc (some (k, zs)) =
      parseLoop rest (acc ++ [(k, zs ++ ys)]) none := by
  induction ys generalizing zs with
  | nil => simp [pl_rbrack_in]
  | cons y ys ih =>
    simp only [List.flatMap_cons, List.cons_append, List.append_assoc]
    rw [pl_comma, pl_str_in]
    simp only [List.nil_append]
    rw [ih]
    simp

theorem parseLoop_arr (xs : List String) (k : String) (zs : List String)
    (acc : SelState) (rest : List JTok) :
    parseLoop (arrToks xs ++ JTok.rbrack :: rest) acc (some (k, zs)) =
      parseLoop rest (acc ++ [(k, zs ++ xs)]) none := by
  cases xs with
  | nil => simp [arrToks, pl_rbrack_in]
  | cons x xs =>
    simp only [arrToks, List.cons_append]
    rw [pl_str_in, parseLoop_arrTail]
    simp

theorem parseLoop_entry (e : String × List String) (acc : SelState) (rest : List JTok) :
    parseLoop (entryToks e ++ rest) acc none = parseLoop rest (acc ++ [e]) none := by
  obtain ⟨k, xs⟩ := e
  simp only [entryToks, List.cons_append, List.append_assoc, List.singleton_append]
  rw [pl_entry_start, parseLoop_arr]
  simp

theorem parseLoop_objTail (es : SelState) (acc : SelState) :
    parseLoop (es.flatMap (fun e₂ => JTok.comma :: entryToks e₂) ++ [JTok.rbrace])
        acc none =
      some (acc ++ es) := by
  induction es generalizing acc with
  | nil => simp [pl_done]
  | cons e es ih =>
    simp only [List.flatMap_cons, List.cons_append, List.append_assoc]
    rw [pl_comma, parseLoop_entry, ih]
    simp

theorem parseToks_objToks (s : SelState) : parseToks (objToks s) = some s := by
  cases s with
  | nil => rfl
  | cons e es =>
    simp only [objToks, parseToks, List.append_assoc]
    rw [parseLoop_entry, parseLoop_objTail]
    simp

theorem parseConfig_dumps (s : SelState) (h : plainState s = true) :
    parseConfig (dumps s) = some s := by
  unfold parseConfig dumps
  rw [show (String.mk (encObjChars s)).data = encObjChars s from rfl]
  rw [tokenize_dumps s h]
  exact parseToks_objToks s

theorem lookupA_mem {α : Type} (l : List (String × α)) (k : String) (v : α)
    (h : lookupA l k = some v) : (k, v) ∈ l := by
  induction l with
  | nil => simp [lookupA] at h
  | cons p rest ih =>
    obtain ⟨k₂, w⟩ := p
    by_cases hk : k₂ = k
    · simp [lookupA, hk] at h
      simp [hk, h]
    · simp [lookupA, hk] at h
      exact List.mem_cons_of_mem _ (ih h)

theorem foldl_genStep_filter (l : List String) (outputDir : String) (fs : FS) :
    l.foldl (genStep outputDir) fs =
      (l.filter (fun f => f ∈ generatorNames)).foldl
        (fun a f => runGenerator f outputDir a) fs := by
  induction l generalizing fs with
  | nil => rfl
  | cons x xs ih =>
    by_cases h : x ∈ generatorNames
    · simp [List.filter_cons, h, genStep, List.foldl_cons, ih]
    · simp [List.filter_cons, h, genStep, List.foldl_cons, ih]

theorem catalogLookup_split (category featureId : String) (comp : Component)
    (hc : catalogLookup category featureId = some comp) :
    ∃ data, lookupA FEATURES category = some data ∧
      lookupA data.components featureId = some comp := by
  unfold catalogLookup at hc
  cases hf : lookupA FEATURES category with
  | none => rw [hf] at hc; exact absurd hc (by simp)
  | some data => rw [hf] at hc; exact ⟨data, rfl, hc⟩

/-- C2: for every Selection State and every (category, component id)
pair, `toggle_feature` fails with the unknown-feature outcome when the
pair is not in the Catalog, and with the required-feature outcome when
the target entry's `required` flag is true; in both failure cases the
Selection State is returned completely unchanged. -/
theorem toggle_failure_leaves_state_unchanged (state : SelState)
    (category featureId : String) :
    (catalogLookup category featureId = none →
      toggle_feature state category featureId = (ToggleResult.unknownFeature, state)) ∧
    (∀ comp : Component, catalogLookup category featureId = some comp →
      comp.required = true →
      toggle_feature state category featureId = (ToggleResult.requiredImmutable, state)) := by
  constructor
  · intro h
    unfold catalogLookup at h
    cases hf : lookupA FEATURES category with
    | none => simp [toggle_feature, hf]
    | some data =>
      rw [hf] at h
      change lookupA data.components featureId = none at h
      simp [toggle_feature, hf, h]
  · intro comp hc hreq
    obtain ⟨data, hf, hcc⟩ := catalogLookup_split category featureId comp hc
    simp [toggle_feature, hf, hcc, hreq]

/-- Witness for C2: toggling the unknown pair ("extras", "cache") and
the required pair ("core", "gateway") on the default state both fail
and leave the state unchanged. -/
theorem toggle_failure_leaves_state_unchanged_witness :
    toggle_feature default_config "extras" "cache" =
      (ToggleResult.unknownFeature, default_config) ∧
    toggle_feature default_config "core" "gateway" =
      (ToggleResult.requiredImmutable, default_config) :=
  ⟨(toggle_failure_leaves_state_unchanged default_config "extras" "cache").1 (by decide),
   (toggle_failure_leaves_state_unchanged default_config "core" "gateway").2
     ⟨"API Gateway", "Entry point for all client requests", true⟩ (by decide) rfl⟩

/-- C3: loading with no configuration file present yields the default
Selection State: its keys are exactly the Catalog categories, and each
category's selected list is exactly the component ids whose `required`
flag is set in the Catalog for that category. -/
theorem load_absent_default_required (file : Option String) :
    (file = none → _load_config file = Except.ok default_config) ∧
    (∀ category data, lookupA FEATURES category = some data →
      lookupA default_config category = some (requiredIds data)) ∧
    default_config.map Prod.fst = FEATURES.map Prod.fst := by
  refine ⟨?_, ?_, by decide⟩
  · intro h
    rw [h]
    rfl
  · intro category data h
    have hm := lookupA_mem FEATURES category data h
    have hall : ∀ p ∈ FEATURES, lookupA default_config p.1 = some (requiredIds p.2) := by
      decide
    exact hall (category, data) hm

/-- Witness for C3: loading a missing file returns the default state
and the `optional` category's default list is exactly its required ids
(the empty list). -/
theorem load_absent_default_required_witness :
    _load_config none = Except.ok default_config ∧
    lookupA default_config "optional" =
      some (requiredIds
        { description := "Optional services to enhance e-commerce functionality",
          components :=
            [ ("reviews",
               { name := "Reviews Service",
                 description := "Product reviews and ratings",
                 required := false }),
              ("discounts",
               { name := "Discounts Service",
                 description := "Promotional offers and discount management",
                 required := false }),
              ("admin",
               { name := "Admin Dashboard Service",
                 description := "Administrative interface backend",
                 required := false }) ] }) :=
  ⟨(load_absent_default_required none).1 rfl,
   (load_absent_default_required none).2.1 "optional" _ (by decide)⟩

/-- C4: for every Selection State and every non-required (category,
component id) pair present in the Catalog, two consecutive successful
`toggle_feature` calls on that pair return the Selection State to its
prior value as a category-to-set map: the second call undoes the first,
leaving every category's selected list a permutation of the original
(a pure set-membership flip; the duplicate-free hypothesis states that
the list faithfully represents a set). -/
theorem toggle_twice_roundtrip (state : SelState) (category featureId : String)
    (comp : Component) (l : List String)
    (hc : catalogLookup category featureId = some comp) (hr : comp.required = false)
    (hl : lookupA state category = some l) (hnd : l.Nodup) :
    ∃ e₁ s₁ e₂ s₂,
      toggle_feature state category featureId = (ToggleResult.success e₁, s₁) ∧
      toggle_feature s₁ category featureId = (ToggleResult.success e₂, s₂) ∧
      e₂ = !e₁ ∧ statePerm s₂ state := by
  obtain ⟨data, hf, hcc⟩ := catalogLookup_split category featureId comp hc
  by_cases hmem : featureId ∈ l
  · refine ⟨false, updateA state category (l.erase featureId), true,
      updateA state category (l.erase featureId ++ [featureId]), ?_, ?_, rfl, ?_⟩
    · simp [toggle_feature, hf, hcc, hr, hl, hmem]
    · have hl₁ : lookupA (updateA state category (l.erase featureId)) category =
          some (l.erase featureId) := lookupA_updateA state category _ l hl
      have hnm : featureId ∉ l.erase featureId := hnd.not_mem_erase
      simp [toggle_feature, hf, hcc, hr, hl₁, hnm, updateA_updateA]
    · refine statePerm_updateA state category _ l hl ?_
      exact (List.perm_append_singleton _ _).trans (List.perm_cons_erase hmem).symm
  · refine ⟨true, updateA state category (l ++ [featureId]), false,
      updateA state category l, ?_, ?_, rfl, ?_⟩
    · simp [toggle_feature, hf, hcc, hr, hl, hmem]
    · have hl₁ : lookupA (updateA state category (l ++ [featureId])) category =
          some (l ++ [featureId]) := lookupA_updateA state category _ l hl
      have hmem₂ : featureId ∈ l ++ [featureId] := by simp
      have herase : (l ++ [featureId]).erase featureId = l := by
        rw [List.erase_append_right _ hmem, List.erase_cons_head, List.append_nil]
      simp [toggle_feature, hf, hcc, hr, hl₁, hmem₂, herase, updateA_updateA]
    · rw [updateA_self state category l hl]
      exact statePerm_refl state

/-- Witness for C4: toggling ("optional", "reviews") twice on the
default state returns to a state set-equal to the default state. -/
theorem toggle_twice_roundtrip_witness :
    ∃ e₁ s₁ e₂ s₂,
      toggle_feature default_config "optional" "reviews" = (ToggleResult.success e₁, s₁) ∧
      toggle_feature s₁ "optional" "reviews" = (ToggleResult.success e₂, s₂) ∧
      e₂ = !e₁ ∧ statePerm s₂ default_config :=
  toggle_twice_roundtrip default_config "optional" "reviews"
    { name := "Reviews Service", description := "Product reviews and ratings",
      required := false }
    [] (by decide) rfl (by decide) (by decide)

/-- C5: saving any Selection State (with plainly-serializable strings)
and immediately loading the written file yields the same Selection
State: the `json.dump` serialization and `json.load` parse round-trip
exactly. -/
theorem save_then_load_roundtrip (s : SelState) (h : plainState s = true) :
    _load_config (save_config s) = Except.ok s := by
  simp [save_config, _load_config, parseConfig_dumps s h]

/-- Witness for C5: the round trip on the default configuration. -/
theorem save_then_load_roundtrip_witness :
    _load_config (save_config default_config) = Except.ok default_config :=
  save_then_load_roundtrip default_config (by decide)

/-- C6: loading an existing but malformed configuration file fails with
the parse error, which propagates to the caller; it never yields any
Selection State, in particular never the default one. -/
theorem load_malformed_propagates_error (text : String)
    (h : parseConfig text = none) :
    _load_config (some text) = Except.error LoadError.parseError ∧
    ∀ s : SelState, _load_config (some text) ≠ Except.ok s := by
  constructor
  · simp [_load_config, h]
  · intro s
    simp [_load_config, h]

/-- Witness for C6: the file content "garbage" is malformed and loading
it is the parse error. -/
theorem load_malformed_propagates_error_witness :
    _load_config (some "garbage") = Except.error LoadError.parseError :=
  (load_malformed_propagates_error "garbage" (by decide)).1

/-- C7: on a Selection State with both category keys, the dispatch loop
of `generate_microservices` runs the Generation Unit of exactly the
selected identifiers registered in the `generators` dict: the run
equals a fold over the registered subset only, and when no selected
identifier is registered the filesystem is returned untouched and the
run still succeeds. -/
theorem generate_all_skips_unregistered (state : SelState) (outputDir : String)
    (fs : FS) (c o : List String) (hc : lookupA state "core" = some c)
    (ho : lookupA state "optional" = some o) :
    generate_all state outputDir fs =
      Except.ok (((c ++ o).filter (fun f => f ∈ generatorNames)).foldl
        (fun a f => runGenerator f outputDir a) fs) ∧
    ((∀ f ∈ c ++ o, f ∉ generatorNames) →
      generate_all state outputDir fs = Except.ok fs) := by
  have h1 : generate_all state outputDir fs =
      Except.ok ((c ++ o).foldl (genStep outputDir) fs) := by
    simp [generate_all, hc, ho]
  constructor
  · rw [h1, foldl_genStep_filter]
  · intro hnone
    rw [h1, foldl_genStep_filter]
    have hfil : (c ++ o).filter (fun f => f ∈ generatorNames) = [] := by
      rw [List.filter_eq_nil_iff]
      intro f hf
      simpa using hnone f hf
    rw [hfil]
    rfl

/-- Witness for C7: a state selecting only `gateway` (no registered
generator) produces no filesystem writes and succeeds. -/
theorem generate_all_skips_unregistered_witness :
    generate_all [("core", ["gateway"]), ("optional", [])] "out" ⟨[], []⟩ =
      Except.ok ⟨[], []⟩ :=
  (generate_all_skips_unregistered [("core", ["gateway"]), ("optional", [])]
    "out" ⟨[], []⟩ ["gateway"] [] rfl rfl).2 (by decide)

/-- C8: for every non-required Catalog pair whose category key is in the
Selection State, `toggle_feature` succeeds and reports the resulting
status: the enabled outcome exactly when the call appended the id to the
selected list (the `Enabled:` message and `True` return), and the
disabled outcome exactly when the call removed it (the `Disabled:`
message). -/
theorem toggle_reports_status (state : SelState) (category featureId : String)
    (comp : Component) (l : List String)
    (hc : catalogLookup category featureId = some comp) (hr : comp.required = false)
    (hl : lookupA state category = some l) :
    (featureId ∉ l →
      toggle_feature state category featureId =
        (ToggleResult.success true, updateA state category (l ++ [featureId]))) ∧
    (featureId ∈ l →
      toggle_feature state category featureId =
        (ToggleResult.success false, updateA state category (l.erase featureId))) := by
  obtain ⟨data, hf, hcc⟩ := catalogLookup_split category featureId comp hc
  constructor
  · intro hmem
    simp [toggle_feature, hf, hcc, hr, hl, hmem]
  · intro hmem
    simp [toggle_feature, hf, hcc, hr, hl, hmem]

/-- Witness for C8: on the default state, toggling ("optional",
"reviews") appends the id and reports the enabled status. -/
theorem toggle_reports_status_witness :
    toggle_feature default_config "optional" "reviews" =
      (ToggleResult.success true, updateA default_config "optional" ([] ++ ["reviews"])) :=
  (toggle_reports_status default_config "optional" "reviews"
    { name := "Reviews Service", description := "Product reviews and ratings",
      required := false }
    [] (by decide) rfl rfl).1 (by decide)

/-- C1 (evaluation at the failing input): running the inventory
Generation Unit on an empty filesystem creates the feature-scoped
`inventory/` directory but writes exactly ONE file — the service
entry-point stub `main.py` — and no container build descriptor:
`generate_dockerfile` constructs `dockerfileContent` and never writes
it, so no path of the output is the Dockerfile. -/
theorem inventory_generate_writes_single_file :
    (inventoryGenerate "generated" ⟨[], []⟩).dirs = ["generated/inventory"] ∧
    (inventoryGenerate "generated" ⟨[], []⟩).files =
      [("generated/inventory/main.py", mainPyContent)] ∧
    (inventoryGenerate "generated" ⟨[], []⟩).files.length = 1 ∧
    ((inventoryGenerate "generated" ⟨[], []⟩).files.all
      (fun p => p.1 != "generated/inventory/Dockerfile")) = true := by
  refine ⟨rfl, rfl, rfl, ?_⟩
  decide

/-- C9 (counterexample): starting from a previously persisted valid
configuration file, a `save_config` that fails between the truncating
`open(path, "w")` and the completed `json.dump` (step 1 of
`saveIntermediate`) leaves the file truncated to the empty string —
replacing the previously persisted content with an unparseable file. -/
theorem save_interrupted_truncates :
    saveIntermediate (some (dumps default_config)) default_config 1 = some "" ∧
    some "" ≠ some (dumps default_config) ∧
    _load_config (some "") = Except.error LoadError.parseError := by
  refine ⟨rfl, ?_, rfl⟩
  decide

/-- C9 (amended): `save_config` overwrites the configuration file in
place: `open(path, "w")` truncates the file immediately, then
`json.dump` writes the serialization, so a write that fails partway
leaves a truncated (empty, unparseable) file and the previous content
is lost; only a completed save leaves the file holding the new state,
which then loads back exactly. -/
theorem save_truncates_then_writes (prev : Option String) (s : SelState)
    (h : plainState s = true) :
    saveIntermediate prev s 0 = prev ∧
    saveIntermediate prev s 1 = some "" ∧
    _load_config (saveIntermediate prev s 1) = Except.error LoadError.parseError ∧
    _load_config (saveIntermediate prev s 2) = Except.ok s := by
  refine ⟨rfl, rfl, rfl, ?_⟩
  show _load_config (save_config s) = Except.ok s
  simp [save_config, _load_config, parseConfig_dumps s h]

/-- Witness for the amended C9, at the default configuration with no
prior file. -/
theorem save_truncates_then_writes_witness :
    saveIntermediate none default_config 0 = none ∧
    saveIntermediate none default_config 1 = some "" ∧
    _load_config (saveIntermediate none default_config 1) =
      Except.error LoadError.parseError ∧
    _load_config (saveIntermediate none default_config 2) =
      Except.ok default_config :=
  save_truncates_then_writes none default_config (by decide)

/-- C10: `_load_config` performs no schema validation: every well-formed
configuration file is returned verbatim as the Selection State, whatever
keys it has; in particular the well-formed file `cfgNoOptional` (missing
the "optional" key) loads, and a subsequent toggle of the valid
non-required Catalog pair ("optional", "reviews") on that state raises
the unhandled `KeyError` rather than any specified error, leaving the
state unchanged. -/
theorem load_returns_file_verbatim (text : String) (d : SelState)
    (h : parseConfig text = some d) :
    _load_config (some text) = Except.ok d ∧
    parseConfig cfgNoOptional = some [("core", ["gateway"])] ∧
    toggle_feature [("core", ["gateway"])] "optional" "reviews" =
      (ToggleResult.keyError, [("core", ["gateway"])]) := by
  refine ⟨?_, by decide, by decide⟩
  simp [_load_config, h]

/-- Witness for C10: loading the file missing the "optional" key
returns its content verbatim. -/
theorem load_returns_file_verbatim_witness :
    _load_config (some cfgNoOptional) = Except.ok [("core", ["gateway"])] ∧
    parseConfig cfgNoOptional = some [("core", ["gateway"])] ∧
    toggle_feature [("core", ["gateway"])] "optional" "reviews" =
      (ToggleResult.keyError, [("core", ["gateway"])]) :=
  load_returns_file_verbatim cfgNoOptional [("core", ["gateway"])] (by decide)
